import Mathlib

/-!
Verification development for the OpenAgentManager desktop broker
(`src-tauri/src/services/*.rs`, `src-tauri/src/commands/*.rs`).

The Rust services are shallowly embedded: `serde_json::Value` becomes the
inductive `OAM.JsonVal`; `HashMap` state becomes association lists observed
through `OAM.lookupA` (HashMap iteration order is never relied upon by the
properties proved here); fallible operations return `Except String _`;
effectful calls on collaborators (the JSON-RPC wire, the thread store, event
emission) are made explicit as returned values or call lists.
-/

namespace OAM

/-! ## Association lists (embedding of `HashMap` state, observed by lookup) -/

def lookupA {κ α : Type} [DecidableEq κ] : List (κ × α) → κ → Option α
  | [], _ => none
  | (k', v) :: rest, k => if k' = k then some v else lookupA rest k

/-- `HashMap::insert`: overwrite the value when the key is present, else add. -/
def insertA {κ α : Type} [DecidableEq κ] : List (κ × α) → κ → α → List (κ × α)
  | [], k, v => [(k, v)]
  | (k', v') :: rest, k, v =>
    if k' = k then (k, v) :: rest else (k', v') :: insertA rest k v

/-- Insert only when the key is absent (`!cache.contains_key` guard). -/
def insertIfAbsentA {κ α : Type} [DecidableEq κ] (l : List (κ × α)) (k : κ) (v : α) :
    List (κ × α) :=
  match lookupA l k with
  | some _ => l
  | none => l ++ [(k, v)]

/-! ## A model of `serde_json::Value` -/

inductive JsonVal : Type where
  | null : JsonVal
  | bool : Bool → JsonVal
  | num : Int → JsonVal
  | str : String → JsonVal
  | arr : List JsonVal → JsonVal
  | obj : List (String × JsonVal) → JsonVal
deriving Repr

/-- Field access on an object; `none` when the key is missing or the value is
not an object. -/
def JsonVal.getField : JsonVal → String → Option JsonVal
  | .obj fields, k => lookupA fields k
  | _, _ => none

/-- Rust `value["key"]` indexing: missing keys and non-objects yield `Null`. -/
def JsonVal.idx (j : JsonVal) (k : String) : JsonVal :=
  (j.getField k).getD .null

/-- `Value::as_str`. -/
def JsonVal.asStr : JsonVal → Option String
  | .str s => some s
  | _ => none

/-- `Value::as_bool`. -/
def JsonVal.asBool : JsonVal → Option Bool
  | .bool b => some b
  | _ => none

/-- `Value::as_array`. -/
def JsonVal.asArr : JsonVal → Option (List JsonVal)
  | .arr xs => some xs
  | _ => none

/-- `value["k"].as_str()`. -/
def JsonVal.getStr (j : JsonVal) (k : String) : Option String :=
  (j.idx k).asStr

/-- `obj[k] = v` on a JSON object (non-objects are left unchanged; the Rust
sources only assign into values known to be objects). -/
def JsonVal.setField : JsonVal → String → JsonVal → JsonVal
  | .obj fields, k, v => .obj (insertA fields k v)
  | j, _, _ => j

/-! ## Agent manager: environment construction for `launch`
(`services/agent_manager.rs`, `AgentManager::launch` lines 225-264) -/

/-- ASCII lowercase of a character (`u8::to_ascii_lowercase`). -/
def asciiLowerChar (c : Char) : Char :=
  if 'A' ≤ c ∧ c ≤ 'Z' then Char.ofNat (c.toNat + 32) else c

/-- ASCII lowercase of a string. -/
def asciiLowerStr (s : String) : String :=
  String.mk (s.data.map asciiLowerChar)

/-- Rust `str::eq_ignore_ascii_case`. -/
def eqIgnoreAsciiCase (a b : String) : Bool :=
  decide (a.data.map asciiLowerChar = b.data.map asciiLowerChar)

/-- The environment-variable blocklist from `AgentManager::launch`. -/
def envBlocklist : List String :=
  ["LD_PRELOAD", "DYLD_INSERT_LIBRARIES", "DYLD_LIBRARY_PATH",
   "NODE_OPTIONS", "NODE_DEBUG"]

/-- `get_api_key_env_vars` from `agent_manager.rs`. -/
def getApiKeyEnvVars (agentId : String) : List String :=
  if agentId = "claude-code" then ["ANTHROPIC_API_KEY"]
  else if agentId = "copilot" ∨ agentId = "github-copilot" then
    ["GH_COPILOT_TOKEN", "GITHUB_TOKEN"]
  else if agentId = "gpt" ∨ agentId = "openai" then ["OPENAI_API_KEY"]
  else if agentId = "gemini" ∨ agentId = "google" then
    ["GOOGLE_API_KEY", "GEMINI_API_KEY"]
  else []

/-- The per-agent settings consulted by `launch` (`AgentSettings` in
`settings_service.rs`: only the fields `launch` reads are modelled). -/
structure AgentEnvSettings where
  apiKeys : Option (List (String × String))
  apiKey : Option String
  customEnv : Option (List (String × String))

/-- One step of the API-key loop in `launch`: for one well-known variable,
prefer `apiKeys[var]`, fall back to the legacy single `apiKey`. -/
def applyApiKeyVar (settings : Option AgentEnvSettings)
    (env : List (String × String)) (envVar : String) : List (String × String) :=
  match settings with
  | none => env
  | some s =>
    match s.apiKeys.bind (fun ks => lookupA ks envVar) with
    | some v => insertA env envVar v
    | none =>
      match s.apiKey with
      | some key => insertA env envVar key
      | none => env

/-- One step of the `extra_env` overlay: keys that case-insensitively match
the blocklist are rejected with a warning, others are inserted. -/
def applyExtraVar (env : List (String × String)) (kv : String × String) :
    List (String × String) :=
  if envBlocklist.any (fun b => eqIgnoreAsciiCase b kv.1) then env
  else insertA env kv.1 kv.2

/-- The final environment built by `AgentManager::launch`: base env from the
registry distribution, then API keys from settings, then the user's
`customEnv`, then the caller's `extraEnv` filtered by the blocklist. -/
def buildFinalEnv (baseEnv : List (String × String)) (agentId : String)
    (settings : Option AgentEnvSettings)
    (extraEnv : Option (List (String × String))) : List (String × String) :=
  let env1 := (getApiKeyEnvVars agentId).foldl (applyApiKeyVar settings) baseEnv
  let env2 :=
    match settings with
    | some s =>
      match s.customEnv with
      | some custom => custom.foldl (fun e kv => insertA e kv.1 kv.2) env1
      | none => env1
    | none => env1
  match extraEnv with
  | some extra => extra.foldl applyExtraVar env2
  | none => env2

/-! ## ACP transport: authenticate with legacy fallback
(`services/acp_client.rs`, `AcpClient::authenticate` lines 201-229) -/

/-- `needle` occurs as a contiguous prefix of `hay`. -/
def charsStartWith : List Char → List Char → Bool
  | [], _ => true
  | _ :: _, [] => false
  | a :: as, b :: bs => a = b && charsStartWith as bs

/-- `needle` occurs contiguously somewhere in `hay`. -/
def charsHaveSub (needle : List Char) : List Char → Bool
  | [] => charsStartWith needle []
  | b :: bs => charsStartWith needle (b :: bs) || charsHaveSub needle bs

/-- Rust `str::contains(substring)`. -/
def strContainsSub (hay needle : String) : Bool :=
  charsHaveSub needle.data hay.data

/-- The method-not-found test from `AcpClient::authenticate` (and `logout`):
the error string mentions `-32601`, or lowercased contains
`"method not found"`. -/
def isMethodNotFoundErr (e : String) : Bool :=
  strContainsSub e "-32601" || strContainsSub (asciiLowerStr e) "method not found"

/-- `AcpClient::authenticate`, parameterised by what the wire would answer to
each of the two possible requests: `first` is the agent's response to
`connection/authenticate`, `legacy` its response to the legacy `authenticate`.
Returns the caller-visible result together with the list of method names
actually sent, in order. -/
def authenticateFlow (first legacy : Except String JsonVal) :
    Except String Unit × List String :=
  match first with
  | .ok _ => (.ok (), ["connection/authenticate"])
  | .error e =>
    if isMethodNotFoundErr e then
      match legacy with
      | .ok _ => (.ok (), ["connection/authenticate", "authenticate"])
      | .error e2 => (.error e2, ["connection/authenticate", "authenticate"])
    else
      (.error e, ["connection/authenticate"])

/-! ## ACP transport: permission-request option synthesis
(`services/acp_client.rs`, `handle_permission_request` lines 723-779) -/

/-- Normalization of one agent-provided permission option. -/
def normalizePermissionOption (opt : JsonVal) : JsonVal :=
  .obj [("optionId", .str ((opt.getStr "optionId").getD "")),
        ("name", .str ((opt.getStr "name").getD "")),
        ("kind", .str ((opt.getStr "kind").getD "allow_once"))]

/-- The two options synthesized when the agent provides none. -/
def defaultPermissionOptions : List JsonVal :=
  [.obj [("optionId", .str "deny"), ("name", .str "Deny"),
         ("kind", .str "reject_once")],
   .obj [("optionId", .str "allow"), ("name", .str "Allow"),
         ("kind", .str "allow_once")]]

/-- The `options` array carried by the emitted `session:permission-request`
event, as computed by `handle_permission_request`. -/
def permissionRequestOptions (params : JsonVal) : List JsonVal :=
  let optionsRaw := ((params.idx "options").asArr).getD []
  if optionsRaw.isEmpty then defaultPermissionOptions
  else optionsRaw.map normalizePermissionOption

/-! ## ACP transport: terminate
(`services/acp_client.rs`, `AcpClient::terminate` lines 370-382) -/

/-- The transport-internal tables touched by `terminate`: the owned child
process, the pending request table (a one-shot slot per request id, `none`
while undelivered), and the permission-resolver table. -/
structure TransportTables where
  child : Option Unit
  pendingSlots : List (Nat × Option (Except String JsonVal))
  permissionResolvers : List (String × Option JsonVal)

/-- The `locked.drain()` loop of `terminate`: each pending slot receives the
given error. -/
def drainPendingErr (msg : String) :
    List (Nat × Option (Except String JsonVal)) → List (Nat × Except String JsonVal)
  | [] => []
  | (id, _) :: rest => (id, .error msg) :: drainPendingErr msg rest

/-- `AcpClient::terminate`: take and drop the child (kill-on-drop), then
drain the request table delivering `Err("Agent terminated")`. Returns the
new tables and the list of deliveries made. -/
def terminateTransport (st : TransportTables) :
    TransportTables × List (Nat × Except String JsonVal) :=
  ({ child := none, pendingSlots := [],
     permissionResolvers := st.permissionResolvers },
   drainPendingErr "Agent terminated" st.pendingSlots)

/-! ## Session manager: rename
(`services/session_manager.rs` lines 257-262, `commands/session.rs`
lines 201-211) -/

/-- The in-memory session record (`SessionInfo` in `session_manager.rs`). -/
structure SessionInfo where
  sessionId : String
  connectionId : String
  agentId : String
  agentName : String
  title : String
  createdAt : String
  worktreePath : Option String
  worktreeBranch : Option String
  workingDir : String
  status : String
  messages : List JsonVal
  interactionMode : Option String
  useWorktree : Option Bool
  workspaceId : Option String
  parentSessionId : Option String
  branchName : Option String

/-- Calls made into the thread store, recorded for observation. -/
inductive ThreadStoreCall : Type where
  | renameCall (sessionId workingDir title : String) : ThreadStoreCall
  | updateMessagesCall (sessionId workingDir : String) (messages : JsonVal) :
      ThreadStoreCall

/-- `SessionManager::rename`: update the title and persist only when the
session exists. -/
def renameSessionOp (sessions : List (String × SessionInfo)) (sid title : String) :
    List (String × SessionInfo) × List ThreadStoreCall :=
  match lookupA sessions sid with
  | none => (sessions, [])
  | some s =>
    (insertA sessions sid { s with title := title },
     [.renameCall sid s.workingDir title])

/-- The `session_rename` command: runs `SessionManager::rename` and returns
`Ok(())` unconditionally. -/
def sessionRenameCommand (sessions : List (String × SessionInfo))
    (sid title : String) :
    Except String Unit × List (String × SessionInfo) × List ThreadStoreCall :=
  ((.ok ()), renameSessionOp sessions sid title)

/-! ## Session manager: prompt
(`services/session_manager.rs`, `SessionManager::prompt` lines 146-199;
`services/acp_client.rs`, `AcpClient::prompt` lines 266-282) -/

/-- The user message appended by `prompt`:
`{id: <uuid>, role: "user", content, timestamp: now}`. -/
def mkUserMessage (uuid : String) (content : JsonVal) (now : String) : JsonVal :=
  .obj [("id", .str uuid), ("role", .str "user"), ("content", content),
        ("timestamp", .str now)]

/-- `AcpClient::prompt`'s result extraction:
`result["stopReason"].as_str().unwrap_or("end_turn")`. -/
def acpPromptStopReason (result : JsonVal) : String :=
  (result.getStr "stopReason").getD "end_turn"

/-- `AcpClient::prompt`, parameterised by the wire response to
`session/prompt`. -/
def acpPromptCall (rpc : Except String JsonVal) : Except String String :=
  match rpc with
  | .ok result => .ok (acpPromptStopReason result)
  | .error e => .error e

/-- The session record right after `SessionManager::prompt`'s first phase:
status set to `"prompting"`, the user message appended, `interactionMode`
updated when a mode was supplied. -/
def promptBeginSession (s : SessionInfo) (content : JsonVal) (mode : Option String)
    (uuid now : String) : SessionInfo :=
  { s with
    status := "prompting",
    messages := s.messages ++ [mkUserMessage uuid content now],
    interactionMode := (match mode with | some m => some m | none => s.interactionMode) }

/-- `SessionManager::prompt` as invoked by the `session_prompt` command:
`connections` is the set of live connection ids in the agent manager, `rpc`
the wire response to `session/prompt`. Returns the caller-visible result,
the updated session map and the thread-store calls made. -/
def promptSessionManager (sessions : List (String × SessionInfo))
    (connections : List String) (sid : String) (content : JsonVal)
    (mode : Option String) (uuid now : String) (rpc : Except String JsonVal) :
    Except String String × List (String × SessionInfo) × List ThreadStoreCall :=
  match lookupA sessions sid with
  | none => (.error ("Session not found: " ++ sid), sessions, [])
  | some s =>
    let s1 := promptBeginSession s content mode uuid now
    let sessions1 := insertA sessions sid s1
    if connections.contains s.connectionId then
      let result := acpPromptCall rpc
      let s2 := { s1 with
        status := (match result with | .ok _ => "active" | .error _ => "error") }
      (result, insertA sessions1 sid s2,
       [.updateMessagesCall sid s2.workingDir (.arr s2.messages)])
    else
      (.error ("Agent connection lost for session: " ++ sid), sessions1, [])

/-! ## Session manager: prompt/cancel interleaving
(`services/session_manager.rs` `prompt` lines 146-199 and `cancel` lines
201-228; `commands/session.rs` `session_prompt` and `session_cancel`, which
hold the sessions mutex for the whole body of each command). -/

/-- The session-record state relevant to the cancel/prompt interaction, for
one session: its status, its message list, whether a prompt is in flight, and
whether the sessions mutex is held (the `session_prompt` command acquires it
before mutating the record and releases it only after the completion handler
has run; `session_cancel` acquires the same mutex). -/
structure PromptFlowState where
  status : String
  messages : List JsonVal
  inFlight : Bool
  sessionsLockHeld : Bool

/-- The atomic transitions visible on a session record: the start of a
prompt (first phase of `SessionManager::prompt`), the completion handler of
a prompt (runs when the transport call returns `Ok` or `Err`), and
`session_cancel`. -/
inductive SessionOp : Type where
  | promptBegin (content : JsonVal) (uuid now : String) : SessionOp
  | promptComplete (ok : Bool) : SessionOp
  | cancelOp : SessionOp

/-- One step of the interleaving semantics. `none` means the operation cannot
execute in this state: `promptBegin` and `cancelOp` block while the sessions
mutex is held, `promptComplete` only runs for an in-flight prompt. The
completion handler always reports the transport result to the caller and
sets the status to `"active"` or `"error"` unconditionally. -/
def promptFlowStep (s : PromptFlowState) : SessionOp → Option PromptFlowState
  | .promptBegin content uuid now =>
    if s.sessionsLockHeld then none
    else some { status := "prompting",
                messages := s.messages ++ [mkUserMessage uuid content now],
                inFlight := true, sessionsLockHeld := true }
  | .promptComplete ok =>
    if s.inFlight then
      some { s with
               status := (if ok then "active" else "error"),
               inFlight := false, sessionsLockHeld := false }
    else none
  | .cancelOp =>
    if s.sessionsLockHeld then none
    else some { s with status := "cancelled" }

/-- Run a sequence of operations; `none` when some operation could not
execute where it is placed. -/
def runSessionOps (s : PromptFlowState) : List SessionOp → Option PromptFlowState
  | [] => some s
  | op :: rest =>
    match promptFlowStep s op with
    | some s' => runSessionOps s' rest
    | none => none

/-- A freshly created session: `status: "active"`, no messages, no prompt in
flight, mutex free. -/
def promptFlowInit : PromptFlowState :=
  { status := "active", messages := [], inFlight := false,
    sessionsLockHeld := false }

/-! ## ACP transport: session-id translation
(`services/acp_client.rs`: `new_session` lines 246-262, `internal_to_remote`
lines 458-461, `handle_session_update` lines 528-552) -/

/-- The per-transport bidirectional session-id map
(`session_map : (HashMap<remote, internal>, HashMap<internal, remote>)`). -/
structure SessionIdMaps where
  remoteToInternalMap : List (String × String)
  internalToRemoteMap : List (String × String)

/-- The registration performed by `new_session` (and `fork_session`) when the
caller supplied an internal id: both directions are inserted. -/
def registerSessionPair (m : SessionIdMaps) (internalId remoteId : String) :
    SessionIdMaps :=
  { remoteToInternalMap := insertA m.remoteToInternalMap remoteId internalId,
    internalToRemoteMap := insertA m.internalToRemoteMap internalId remoteId }

/-- A sequence of later registrations applied in order. -/
def applyRegistrations (m : SessionIdMaps) (regs : List (String × String)) :
    SessionIdMaps :=
  regs.foldl (fun acc p => registerSessionPair acc p.1 p.2) m

/-- `AcpClient::internal_to_remote`: translate a broker-internal session id to
the agent's remote id, passing unknown ids through unchanged. -/
def internalToRemote (m : SessionIdMaps) (internalId : String) : String :=
  (lookupA m.internalToRemoteMap internalId).getD internalId

/-- The inbound translation in `handle_session_update` and
`handle_permission_request`: remote to internal, passing unknown ids through
unchanged. -/
def remoteToInternal (m : SessionIdMaps) (remoteId : String) : String :=
  (lookupA m.remoteToInternalMap remoteId).getD remoteId

/-- The `sessionId` field of the `session:update` event emitted by
`handle_session_update` for the given inbound params. -/
def sessionUpdateEventSessionId (m : SessionIdMaps) (params : JsonVal) : String :=
  remoteToInternal m (((params.idx "sessionId").asStr).getD "")

/-! ## Thread store: cache rebuild by workspace scan
(`services/thread_store.rs`, `ThreadStore::rebuild_cache` lines 194-233 and
`scan_worktrees_for_threads` lines 329-365) -/

/-- A filesystem path, as a list of components. -/
abbrev FsPath := List String

/-- The parsed content of a `thread.json`: the `sessionId` plus an opaque tag
standing for the remaining manifest fields. -/
structure ThreadManifest where
  sessionId : String
  payload : Nat
deriving DecidableEq

/-- The filesystem as seen by the scan: the set of existing directories (in
`read_dir` enumeration order) and, for each thread directory that holds a
readable, parseable `thread.json`, its manifest. -/
structure ScanFS where
  dirs : List FsPath
  manifests : List (FsPath × ThreadManifest)

/-- `Path::exists` for a directory. -/
def dirExists (fs : ScanFS) (p : FsPath) : Bool :=
  fs.dirs.any (fun q => decide (q = p))

/-- `read_dir`: the names of the directory entries of `d` that are
directories, in enumeration order. -/
def childDirs (fs : ScanFS) (d : FsPath) : List String :=
  fs.dirs.filterMap (fun p =>
    if p.dropLast = d ∧ p.length = d.length + 1 then p.getLast? else none)

/-- Read and parse `<threadDir>/thread.json`. -/
def manifestAt (fs : ScanFS) (threadDir : FsPath) : Option ThreadManifest :=
  lookupA fs.manifests threadDir

/-- A cache entry: the manifest with the workspace id attached
(`entry["workspaceId"] = workspace_id`). -/
structure CacheEntry where
  manifest : ThreadManifest
  workspaceId : String
deriving DecidableEq

/-- Scan one `.agent/threads` directory: every child directory holding a
manifest with a non-empty `sessionId` yields a keyed cache entry. -/
def threadsIn (fs : ScanFS) (agentDir : FsPath) (wid : String) :
    List (String × CacheEntry) :=
  (childDirs fs agentDir).filterMap (fun name =>
    match manifestAt fs (agentDir ++ [name]) with
    | some man =>
      if man.sessionId = "" then none
      else some (man.sessionId, ⟨man, wid⟩)
    | none => none)

/-- Pass 1 of `rebuild_cache` for one workspace: scan
`<root>/.agent/threads/*` (skipped entirely when that directory does not
exist — the `continue`). -/
def pass1Entries (fs : ScanFS) (wid : String) (root : FsPath) :
    List (String × CacheEntry) :=
  if dirExists fs (root ++ [".agent", "threads"]) then
    threadsIn fs (root ++ [".agent", "threads"]) wid
  else []

/-- Pass 2 (`scan_worktrees_for_threads`, called with
`base_dir = <root>/.agent` so `base_dir.parent() = <root>`): scan every
subdirectory of `<root>` for a `.agent/threads` subpath. The same `continue`
that guards pass 1 skips this pass when `<root>/.agent/threads` does not
exist. -/
def pass2Entries (fs : ScanFS) (wid : String) (root : FsPath) :
    List (String × CacheEntry) :=
  if dirExists fs (root ++ [".agent", "threads"]) then
    (childDirs fs root).flatMap (fun child =>
      if dirExists fs (root ++ [child, ".agent", "threads"]) then
        threadsIn fs (root ++ [child, ".agent", "threads"]) wid
      else [])
  else []

/-- One workspace of `rebuild_cache`: pass-1 entries are inserted with
overwrite (`cache.insert`), then pass-2 entries only when the key is absent
(`!cache.contains_key`). -/
def processWorkspace (fs : ScanFS) (cache : List (String × CacheEntry))
    (w : String × FsPath) : List (String × CacheEntry) :=
  let c1 := (pass1Entries fs w.1 w.2).foldl (fun c kv => insertA c kv.1 kv.2) cache
  (pass2Entries fs w.1 w.2).foldl (fun c kv => insertIfAbsentA c kv.1 kv.2) c1

/-- `ThreadStore::rebuild_cache`: fold the workspaces, starting from an empty
cache. -/
def rebuildCache (fs : ScanFS) (workspaces : List (String × FsPath)) :
    List (String × CacheEntry) :=
  workspaces.foldl (processWorkspace fs) []

/-- Modelled from the claim's words (for comparison with `rebuildCache`):
pass 2 scans the sibling directories of `<root>` — the entries of
`<root>`'s parent other than `<root>` itself — for the same
`.agent/threads` subpath. -/
def pass2SiblingEntries (fs : ScanFS) (wid : String) (root : FsPath) :
    List (String × CacheEntry) :=
  (childDirs fs root.dropLast).flatMap (fun sib =>
    if root.dropLast ++ [sib] = root then []
    else if dirExists fs (root.dropLast ++ [sib, ".agent", "threads"]) then
      threadsIn fs (root.dropLast ++ [sib, ".agent", "threads"]) wid
    else [])

/-- Modelled from the claim's words: the union, keyed by `sessionId` with
first-writer-wins across duplicates, of each workspace's pass-1 scan and
sibling pass-2 scan. -/
def rebuildCacheClaim (fs : ScanFS) (workspaces : List (String × FsPath)) :
    List (String × CacheEntry) :=
  (workspaces.flatMap (fun w =>
      pass1Entries fs w.1 w.2 ++ pass2SiblingEntries fs w.1 w.2)).foldl
    (fun c kv => insertIfAbsentA c kv.1 kv.2) []

/-- The last entry for a key in a keyed entry list (what repeated
overwriting insertion keeps). -/
def lastWins {κ α : Type} [DecidableEq κ] (l : List (κ × α)) (k : κ) : Option α :=
  (l.reverse.find? (fun p => decide (p.1 = k))).map (·.2)

/-- The first entry for a key in a keyed entry list (what insert-if-absent
keeps). -/
def firstWins {κ α : Type} [DecidableEq κ] (l : List (κ × α)) (k : κ) : Option α :=
  (l.find? (fun p => decide (p.1 = k))).map (·.2)

/-- The counterexample filesystem for the rebuild-cache claim: workspace root
`w` with an empty own threads directory, a subdirectory `w/sub` holding
thread `S`, and a sibling directory `v` of the root holding thread `T`. -/
def fsCex : ScanFS :=
  { dirs := [["w"], ["w", ".agent"], ["w", ".agent", "threads"],
             ["w", "sub"], ["w", "sub", ".agent"],
             ["w", "sub", ".agent", "threads"],
             ["w", "sub", ".agent", "threads", "t1"],
             ["v"], ["v", ".agent"], ["v", ".agent", "threads"],
             ["v", ".agent", "threads", "t2"]],
    manifests := [(["w", "sub", ".agent", "threads", "t1"], ⟨"S", 1⟩),
                  (["v", ".agent", "threads", "t2"], ⟨"T", 2⟩)] }

/-! ## Thread store: save / update_messages / load
(`services/thread_store.rs`: `save` lines 54-98, `update_messages` lines
101-128, `load_thread` lines 261-302, `load_all` lines 172-191) -/

/-- The on-disk content of one thread directory
`<workingDir>/.agent/threads/<sessionId>/`: the parsed `thread.json` and the
message records of `messages.jsonl` (the line-level JSONL encoding is glue:
`serde_json::to_string` emits one line per record and `load_thread` parses
the lines back). -/
structure ThreadDirContent where
  manifest : JsonVal
  messages : List JsonVal

/-- The thread store's on-disk state: thread directories keyed by
`(workingDir, sessionId)`, plus the `thread-cache.json` index keyed by
session id. -/
structure StoreFS where
  threads : List ((String × String) × ThreadDirContent)
  cache : List (String × JsonVal)

/-- The manifest object written by `ThreadStore::save`. -/
def mkThreadManifest (session : JsonVal) (sid wd now : String) : JsonVal :=
  .obj [("sessionId", .str sid),
        ("title", .str (((session.idx "title").asStr).getD "Untitled")),
        ("agentId", .str (((session.idx "agentId").asStr).getD "")),
        ("agentName", .str (((session.idx "agentName").asStr).getD "")),
        ("workingDir", .str wd),
        ("createdAt", .str (((session.idx "createdAt").asStr).getD now)),
        ("updatedAt", .str now),
        ("workspaceId", session.idx "workspaceId"),
        ("worktreePath", session.idx "worktreePath"),
        ("worktreeBranch", session.idx "worktreeBranch"),
        ("useWorktree", session.idx "useWorktree"),
        ("interactionMode", session.idx "interactionMode"),
        ("parentSessionId", session.idx "parentSessionId")]

/-- `ThreadStore::save`: require `sessionId` and `workingDir`, write the
manifest and the message list, and update the index cache with the new
manifest. -/
def saveThread (st : StoreFS) (session : JsonVal) (now : String) :
    Except String StoreFS :=
  match (session.idx "sessionId").asStr with
  | none => .error "Missing sessionId"
  | some sid =>
    match (session.idx "workingDir").asStr with
    | none => .error "Missing workingDir"
    | some wd =>
      .ok { threads := insertA st.threads (wd, sid)
              ⟨mkThreadManifest session sid wd now,
               ((session.idx "messages").asArr).getD []⟩,
            cache := insertA st.cache sid (mkThreadManifest session sid wd now) }

/-- `ThreadStore::update_messages`: no-op when the thread directory does not
exist; otherwise rewrite `messages.jsonl` and bump the manifest's
`updatedAt`. The index cache is not touched. -/
def updateMessages (st : StoreFS) (sid wd : String) (messages : JsonVal)
    (now : String) : StoreFS :=
  match lookupA st.threads (wd, sid) with
  | none => st
  | some content =>
    { st with
        threads := insertA st.threads (wd, sid)
          ⟨content.manifest.setField "updatedAt" (.str now),
           (messages.asArr).getD []⟩ }

/-- `PersistedThread` from `thread_store.rs`. -/
structure PersistedThread where
  sessionId : String
  title : String
  agentId : String
  agentName : String
  workingDir : String
  createdAt : String
  updatedAt : String
  workspaceId : Option String
  worktreePath : Option String
  worktreeBranch : Option String
  useWorktree : Option Bool
  interactionMode : Option String
  parentSessionId : Option String
  messages : List JsonVal

/-- `ThreadStore::load_thread`: read the manifest and messages back, with the
documented per-field defaults. -/
def loadThread (st : StoreFS) (sid wd : String) : Option PersistedThread :=
  match lookupA st.threads (wd, sid) with
  | none => none
  | some content =>
    some { sessionId := ((content.manifest.idx "sessionId").asStr).getD sid,
           title := ((content.manifest.idx "title").asStr).getD "Untitled",
           agentId := ((content.manifest.idx "agentId").asStr).getD "",
           agentName := ((content.manifest.idx "agentName").asStr).getD "",
           workingDir := ((content.manifest.idx "workingDir").asStr).getD wd,
           createdAt := ((content.manifest.idx "createdAt").asStr).getD "",
           updatedAt := ((content.manifest.idx "updatedAt").asStr).getD "",
           workspaceId := (content.manifest.idx "workspaceId").asStr,
           worktreePath := (content.manifest.idx "worktreePath").asStr,
           worktreeBranch := (content.manifest.idx "worktreeBranch").asStr,
           useWorktree := (content.manifest.idx "useWorktree").asBool,
           interactionMode := (content.manifest.idx "interactionMode").asStr,
           parentSessionId := (content.manifest.idx "parentSessionId").asStr,
           messages := content.messages }

/-- Insertion step of the descending `updatedAt` sort used by `load_all`. -/
def insertSortedByUpdatedAt (t : PersistedThread) :
    List PersistedThread → List PersistedThread
  | [] => [t]
  | u :: rest =>
    if u.updatedAt < t.updatedAt then t :: u :: rest
    else u :: insertSortedByUpdatedAt t rest

/-- `threads.sort_by(|a, b| b.updated_at.cmp(&a.updated_at))`. -/
def sortByUpdatedAtDesc : List PersistedThread → List PersistedThread
  | [] => []
  | t :: rest => insertSortedByUpdatedAt t (sortByUpdatedAtDesc rest)

/-- `ThreadStore::load_all`: for each cache entry with a `workingDir`, load
the thread from disk; sort descending by `updatedAt`. -/
def loadAll (st : StoreFS) : List PersistedThread :=
  sortByUpdatedAtDesc (st.cache.filterMap (fun entry =>
    match (entry.2.idx "workingDir").asStr with
    | none => none
    | some wd => loadThread st entry.1 wd))

/-- A concrete session value used to instantiate the thread-store witness. -/
def sampleThreadSession : JsonVal :=
  .obj [("sessionId", .str "s1"), ("workingDir", .str "/w"),
        ("title", .str "T"), ("messages", .arr [.str "m0"])]

/-- The store state after saving `sampleThreadSession` at time `t0`. -/
def sampleStoreAfterSave : StoreFS :=
  { threads := [(("/w", "s1"),
      ⟨mkThreadManifest sampleThreadSession "s1" "/w" "t0", [.str "m0"]⟩)],
    cache := [("s1", mkThreadManifest sampleThreadSession "s1" "/w" "t0")] }

/-- The thread loaded back after saving `sampleThreadSession` at `t0`. -/
def samplePersisted : PersistedThread :=
  { sessionId := "s1", title := "T", agentId := "", agentName := "",
    workingDir := "/w", createdAt := "t0", updatedAt := "t0",
    workspaceId := none, worktreePath := none, worktreeBranch := none,
    useWorktree := none, interactionMode := none, parentSessionId := none,
    messages := [.str "m0"] }

/-- A concrete session record used to instantiate witnesses. -/
def sampleSession : SessionInfo :=
  { sessionId := "sid-1", connectionId := "conn-1", agentId := "claude-code",
    agentName := "Claude Code", title := "Session sid-1", createdAt := "t0",
    worktreePath := none, worktreeBranch := none, workingDir := "/w",
    status := "active", messages := [], interactionMode := none,
    useWorktree := none, workspaceId := none, parentSessionId := none,
    branchName := none }

/-! ## Supporting lemmas -/

theorem lookupA_insertA {κ α : Type} [DecidableEq κ] (l : List (κ × α)) (k k' : κ) (v : α) :
    lookupA (insertA l k v) k' = if k' = k then some v else lookupA l k' := by
  induction l with
  | nil =>
    by_cases h : k' = k
    · subst h; simp [insertA, lookupA]
    · simp [insertA, lookupA, h, Ne.symm h]
  | cons p rest ih =>
    obtain ⟨k₀, v₀⟩ := p
    by_cases h0 : k₀ = k
    · subst h0
      by_cases h1 : k' = k₀
      · subst h1; simp [insertA, lookupA]
      · simp [insertA, lookupA, h1, Ne.symm h1]
    · by_cases h1 : k₀ = k'
      · subst h1
        simp [insertA, lookupA, h0]
      · simp [insertA, lookupA, h0, h1, ih]

theorem lookupA_append {κ α : Type} [DecidableEq κ] (l₁ l₂ : List (κ × α)) (k : κ) :
    lookupA (l₁ ++ l₂) k = (lookupA l₁ k).or (lookupA l₂ k) := by
  induction l₁ with
  | nil => simp [lookupA, Option.or]
  | cons p rest ih =>
    obtain ⟨k₀, v₀⟩ := p
    by_cases h : k₀ = k
    · simp [lookupA, h, Option.or]
    · simp [lookupA, h, ih]

theorem lookupA_insertIfAbsentA {κ α : Type} [DecidableEq κ]
    (l : List (κ × α)) (k k' : κ) (v : α) :
    lookupA (insertIfAbsentA l k v) k' =
      (lookupA l k').or (if k' = k then some v else none) := by
  unfold insertIfAbsentA
  cases hmem : lookupA l k with
  | some w =>
    by_cases h : k' = k
    · subst h; simp [hmem, Option.or]
    · cases hx : lookupA l k' <;> simp [hx, Option.or, h]
  | none =>
    rw [lookupA_append]
    by_cases h : k' = k
    · subst h; simp [hmem, lookupA]
    · simp [lookupA, h, Ne.symm h]

theorem mem_insertA {κ α : Type} [DecidableEq κ] (l : List (κ × α)) (k : κ) (v : α) :
    (k, v) ∈ insertA l k v := by
  induction l with
  | nil => simp [insertA]
  | cons p rest ih =>
    obtain ⟨k₀, v₀⟩ := p
    by_cases h : k₀ = k
    · simp [insertA, h]
    · simp [insertA, h, ih]

theorem lookup_foldl_applyExtraVar (extra : List (String × String))
    (env : List (String × String)) (k : String)
    (hk : envBlocklist.any (fun b => eqIgnoreAsciiCase b k) = true) :
    lookupA (extra.foldl applyExtraVar env) k = lookupA env k := by
  induction extra generalizing env with
  | nil => rfl
  | cons kv rest ih =>
    simp only [List.foldl_cons]
    rw [ih]
    unfold applyExtraVar
    cases hb : envBlocklist.any (fun b => eqIgnoreAsciiCase b kv.1) with
    | true => simp
    | false =>
      simp only [Bool.false_eq_true, if_false]
      rw [lookupA_insertA]
      have hne : ¬ k = kv.1 := by
        intro h
        rw [← h, hk] at hb
        exact Bool.true_eq_false.mp hb
      simp [hne]

theorem drainPendingErr_eq_map (msg : String)
    (l : List (Nat × Option (Except String JsonVal))) :
    drainPendingErr msg l = l.map (fun p => (p.1, Except.error msg)) := by
  induction l with
  | nil => rfl
  | cons p rest ih => obtain ⟨id, s⟩ := p; simp [drainPendingErr, ih]

/-- The invariant connecting in-flight prompts to the session status and the
sessions mutex. -/
def promptFlowInv (s : PromptFlowState) : Prop :=
  s.inFlight = true → (s.status = "prompting" ∧ s.sessionsLockHeld = true)

theorem promptFlowStep_preserves_inv (s : PromptFlowState) (op : SessionOp)
    (s' : PromptFlowState) (hinv : promptFlowInv s)
    (hstep : promptFlowStep s op = some s') : promptFlowInv s' := by
  cases op with
  | promptBegin content uuid now =>
    unfold promptFlowStep at hstep
    by_cases hl : s.sessionsLockHeld
    · simp [hl] at hstep
    · simp [hl] at hstep
      subst hstep
      intro _
      exact ⟨rfl, rfl⟩
  | promptComplete ok =>
    unfold promptFlowStep at hstep
    by_cases hf : s.inFlight
    · simp [hf] at hstep
      subst hstep
      intro h
      simp at h
    · simp [hf] at hstep
  | cancelOp =>
    unfold promptFlowStep at hstep
    by_cases hl : s.sessionsLockHeld
    · simp [hl] at hstep
    · simp [hl] at hstep
      subst hstep
      intro h
      rcases hinv h with ⟨_, hlock⟩
      exact absurd hlock hl

theorem runSessionOps_preserves_inv (ops : List SessionOp) (s₀ s : PromptFlowState)
    (hinv : promptFlowInv s₀) (hrun : runSessionOps s₀ ops = some s) :
    promptFlowInv s := by
  induction ops generalizing s₀ with
  | nil =>
    unfold runSessionOps at hrun
    cases hrun
    exact hinv
  | cons op rest ih =>
    unfold runSessionOps at hrun
    cases hstep : promptFlowStep s₀ op with
    | none => rw [hstep] at hrun; cases hrun
    | some s₁ =>
      rw [hstep] at hrun
      exact ih s₁ (promptFlowStep_preserves_inv s₀ op s₁ hinv hstep) hrun

theorem lookup_applyRegistrations_rToI (regs : List (String × String))
    (m : SessionIdMaps) (remote : String) (h : ∀ p ∈ regs, p.2 ≠ remote) :
    lookupA (applyRegistrations m regs).remoteToInternalMap remote =
      lookupA m.remoteToInternalMap remote := by
  induction regs generalizing m with
  | nil => rfl
  | cons p rest ih =>
    have hp : p.2 ≠ remote := h p (List.mem_cons_self p rest)
    have hrest : ∀ q ∈ rest, q.2 ≠ remote := fun q hq => h q (List.mem_cons_of_mem p hq)
    unfold applyRegistrations at ih ⊢
    simp only [List.foldl_cons]
    rw [ih _ hrest]
    simp only [registerSessionPair]
    rw [lookupA_insertA]
    simp [Ne.symm hp]

theorem lookup_applyRegistrations_iToR (regs : List (String × String))
    (m : SessionIdMaps) (internal : String) (h : ∀ p ∈ regs, p.1 ≠ internal) :
    lookupA (applyRegistrations m regs).internalToRemoteMap internal =
      lookupA m.internalToRemoteMap internal := by
  induction regs generalizing m with
  | nil => rfl
  | cons p rest ih =>
    have hp : p.1 ≠ internal := h p (List.mem_cons_self p rest)
    have hrest : ∀ q ∈ rest, q.1 ≠ internal := fun q hq => h q (List.mem_cons_of_mem p hq)
    unfold applyRegistrations at ih ⊢
    simp only [List.foldl_cons]
    rw [ih _ hrest]
    simp only [registerSessionPair]
    rw [lookupA_insertA]
    simp [Ne.symm hp]

theorem lastWins_single {κ α : Type} [DecidableEq κ] (kv : κ × α) (k : κ) :
    lastWins [kv] k = (if k = kv.1 then some kv.2 else none) := by
  by_cases h : k = kv.1
  · simp [lastWins, List.find?, h]
  · simp [lastWins, List.find?, h, Ne.symm h]

theorem firstWins_single {κ α : Type} [DecidableEq κ] (kv : κ × α) (k : κ) :
    firstWins [kv] k = (if k = kv.1 then some kv.2 else none) := by
  by_cases h : k = kv.1
  · simp [firstWins, List.find?, h]
  · simp [firstWins, List.find?, h, Ne.symm h]

theorem lastWins_append {κ α : Type} [DecidableEq κ] (l₁ l₂ : List (κ × α)) (k : κ) :
    lastWins (l₁ ++ l₂) k = (lastWins l₂ k).or (lastWins l₁ k) := by
  unfold lastWins
  rw [List.reverse_append, List.find?_append]
  cases l₂.reverse.find? (fun p => decide (p.1 = k)) <;> simp [Option.or]

theorem firstWins_append {κ α : Type} [DecidableEq κ] (l₁ l₂ : List (κ × α)) (k : κ) :
    firstWins (l₁ ++ l₂) k = (firstWins l₁ k).or (firstWins l₂ k) := by
  unfold firstWins
  rw [List.find?_append]
  cases l₁.find? (fun p => decide (p.1 = k)) <;> simp [Option.or]

theorem lookup_foldl_insertA {κ α : Type} [DecidableEq κ]
    (l : List (κ × α)) (c : List (κ × α)) (k : κ) :
    lookupA (l.foldl (fun c kv => insertA c kv.1 kv.2) c) k =
      (lastWins l k).or (lookupA c k) := by
  induction l generalizing c with
  | nil => simp [lastWins, Option.none_or, List.foldl_nil]
  | cons kv rest ih =>
    simp only [List.foldl_cons]
    rw [ih, lookupA_insertA,
        show kv :: rest = [kv] ++ rest from rfl, lastWins_append, lastWins_single,
        Option.or_assoc]
    congr 1
    by_cases h : k = kv.1 <;> simp [h, Option.or]

theorem lookup_foldl_insertIfAbsentA {κ α : Type} [DecidableEq κ]
    (l : List (κ × α)) (c : List (κ × α)) (k : κ) :
    lookupA (l.foldl (fun c kv => insertIfAbsentA c kv.1 kv.2) c) k =
      (lookupA c k).or (firstWins l k) := by
  induction l generalizing c with
  | nil => simp [firstWins, Option.or_none, List.foldl_nil]
  | cons kv rest ih =>
    simp only [List.foldl_cons]
    rw [ih, lookupA_insertIfAbsentA, Option.or_assoc,
        show kv :: rest = [kv] ++ rest from rfl, firstWins_append, firstWins_single]

theorem lookup_processWorkspace (fs : ScanFS) (c : List (String × CacheEntry))
    (w : String × FsPath) (k : String) :
    lookupA (processWorkspace fs c w) k =
      (lastWins (pass1Entries fs w.1 w.2) k).or
        ((lookupA c k).or (firstWins (pass2Entries fs w.1 w.2) k)) := by
  unfold processWorkspace
  rw [lookup_foldl_insertIfAbsentA, lookup_foldl_insertA, Option.or_assoc]

theorem lookup_foldl_processWorkspace (fs : ScanFS)
    (ws : List (String × FsPath)) (c : List (String × CacheEntry)) (k : String) :
    lookupA (ws.foldl (processWorkspace fs) c) k =
      (lastWins (ws.flatMap (fun w => pass1Entries fs w.1 w.2)) k).or
        ((lookupA c k).or
          (firstWins (ws.flatMap (fun w => pass2Entries fs w.1 w.2)) k)) := by
  induction ws generalizing c with
  | nil => simp [lastWins, firstWins, Option.none_or, Option.or_none]
  | cons w ws ih =>
    simp only [List.foldl_cons]
    rw [ih, lookup_processWorkspace,
        show (w :: ws).flatMap (fun w => pass1Entries fs w.1 w.2) =
          pass1Entries fs w.1 w.2 ++ ws.flatMap (fun w => pass1Entries fs w.1 w.2)
          from rfl,
        show (w :: ws).flatMap (fun w => pass2Entries fs w.1 w.2) =
          pass2Entries fs w.1 w.2 ++ ws.flatMap (fun w => pass2Entries fs w.1 w.2)
          from rfl,
        lastWins_append, firstWins_append]
    simp only [Option.or_assoc]

/-! ## Claim theorems -/

/-- C3 (counterexample): the second pass of `rebuild_cache` scans the
subdirectories of the workspace root, not the sibling directories of the
root: on `fsCex`, the code finds thread `S` (under `w/sub`, a subdirectory)
and misses thread `T` (under `v`, a sibling), while the claimed
sibling-scanning union finds `T` and misses `S`, so the claim as stated is
false. -/
theorem c3_rebuild_counterexample :
    lookupA (rebuildCache fsCex [("ws1", ["w"])]) "S" =
      some ⟨⟨"S", 1⟩, "ws1"⟩ ∧
    lookupA (rebuildCacheClaim fsCex [("ws1", ["w"])]) "S" = none ∧
    lookupA (rebuildCache fsCex [("ws1", ["w"])]) "T" = none ∧
    lookupA (rebuildCacheClaim fsCex [("ws1", ["w"])]) "T" =
      some ⟨⟨"T", 2⟩, "ws1"⟩ :=
  ⟨rfl, rfl, rfl, rfl⟩

/-- C3 (amended): `rebuild_cache` produces a cache whose lookup at every
`sessionId` equals: the last pass-1 entry for that id across all workspaces
in scan order (pass-1 insertion overwrites), and otherwise the first pass-2
entry for it (pass-2 insertion is first-writer-wins and never overrides
pass 1); pass 1 scans `<root>/.agent/threads/*`, pass 2 scans the
subdirectories of `<root>` for the same subpath, both passes are skipped for
a workspace whose own `.agent/threads` does not exist, only manifests with a
non-empty `sessionId` are kept, and the workspace id is attached to each
entry. -/
theorem c3_rebuild_characterization (fs : ScanFS) (ws : List (String × FsPath))
    (k : String) :
    lookupA (rebuildCache fs ws) k =
      (lastWins (ws.flatMap (fun w => pass1Entries fs w.1 w.2)) k).or
        (firstWins (ws.flatMap (fun w => pass2Entries fs w.1 w.2)) k) := by
  unfold rebuildCache
  rw [lookup_foldl_processWorkspace]
  simp [lookupA]

/-- C2 (counterexample): the blocklist is not applied to the user's
`customEnv`: launching with `customEnv = {LD_PRELOAD: libevil.so}` puts the
blocklisted key into the spawned subprocess's environment, so the claim that
no case-insensitively blocklisted key is ever present regardless of origin is
false. -/
theorem c2_blocklist_counterexample :
    envBlocklist.any (fun b => eqIgnoreAsciiCase b "LD_PRELOAD") = true ∧
    lookupA
      (buildFinalEnv [] "claude-code"
        (some { apiKeys := none, apiKey := none,
                customEnv := some [("LD_PRELOAD", "libevil.so")] })
        none)
      "LD_PRELOAD" = some "libevil.so" :=
  ⟨by decide, by rfl⟩

/-- C2 (amended): only caller-provided `extraEnv` keys are checked against the
blocklist: for every launch, a key that case-insensitively matches the
blocklist is never taken from `extraEnv` — the final environment at such a key
is exactly what the base env / API keys / customEnv stages produced. -/
theorem c2_extraEnv_blocklist (baseEnv : List (String × String)) (agentId : String)
    (settings : Option AgentEnvSettings) (extra : List (String × String))
    (k : String)
    (hk : envBlocklist.any (fun b => eqIgnoreAsciiCase b k) = true) :
    lookupA (buildFinalEnv baseEnv agentId settings (some extra)) k =
      lookupA (buildFinalEnv baseEnv agentId settings none) k := by
  exact lookup_foldl_applyExtraVar extra _ k hk

theorem c2_extraEnv_blocklist_witness :
    envBlocklist.any (fun b => eqIgnoreAsciiCase b "ld_preload") = true ∧
    lookupA
        (buildFinalEnv [("PATH", "/usr/bin")] "openai" none
          (some [("ld_preload", "x"), ("FOO", "1")])) "ld_preload" =
      lookupA (buildFinalEnv [("PATH", "/usr/bin")] "openai" none none)
        "ld_preload" :=
  ⟨by decide, c2_extraEnv_blocklist _ _ _ _ _ (by decide)⟩

/-- C7: `authenticate` falls back to the legacy method name exactly when the
`connection/authenticate` error mentions `-32601` or contains
"method not found" case-insensitively; the retry happens exactly once, any
other error propagates without a retry, and success of either attempt yields
`Ok(())` with the payload ignored. -/
theorem c7_authenticate_fallback (first legacy : Except String JsonVal) :
    (∀ r, first = .ok r →
      authenticateFlow first legacy = (.ok (), ["connection/authenticate"])) ∧
    (∀ e, first = .error e → isMethodNotFoundErr e = true →
      (authenticateFlow first legacy).2 = ["connection/authenticate", "authenticate"] ∧
      (authenticateFlow first legacy).1 = legacy.map (fun _ => ())) ∧
    (∀ e, first = .error e → isMethodNotFoundErr e = false →
      authenticateFlow first legacy = (.error e, ["connection/authenticate"])) := by
  refine ⟨?_, ?_, ?_⟩
  · intro r h; subst h; rfl
  · intro e h hm
    subst h
    cases legacy with
    | ok r => simp [authenticateFlow, hm, Except.map]
    | error e2 => simp [authenticateFlow, hm, Except.map]
  · intro e h hm
    subst h
    simp [authenticateFlow, hm]

theorem c7_authenticate_fallback_witness :
    isMethodNotFoundErr "ACP error -32601: Method not found" = true ∧
    (authenticateFlow (.error "ACP error -32601: Method not found")
        (.ok .null)).2 = ["connection/authenticate", "authenticate"] ∧
    (authenticateFlow (.error "ACP error -32601: Method not found")
        (.ok .null)).1 = (Except.ok JsonVal.null).map (fun _ => ()) :=
  ⟨by decide,
   (c7_authenticate_fallback (.error "ACP error -32601: Method not found")
      (.ok .null)).2.1 _ rfl (by decide)⟩

/-- C8: a `session/request_permission` whose `options` array is absent, empty
or not an array yields exactly the two synthesized options
deny/reject_once and allow/allow_once; a non-empty array yields the agent's
options normalized in order. -/
theorem c8_permission_options (params : JsonVal) :
    (((params.idx "options").asArr).getD [] = [] →
      permissionRequestOptions params = defaultPermissionOptions) ∧
    (defaultPermissionOptions.map
        (fun o => (o.getStr "optionId", o.getStr "kind")) =
      [(some "deny", some "reject_once"), (some "allow", some "allow_once")]) ∧
    (∀ opts, (params.idx "options").asArr = some opts → opts ≠ [] →
      permissionRequestOptions params = opts.map normalizePermissionOption) := by
  refine ⟨?_, by rfl, ?_⟩
  · intro h
    simp [permissionRequestOptions, h]
  · intro opts h hne
    cases opts with
    | nil => exact absurd rfl hne
    | cons o rest => simp [permissionRequestOptions, h]

theorem c8_permission_options_witness :
    permissionRequestOptions (.obj []) = defaultPermissionOptions ∧
    permissionRequestOptions
        (.obj [("options", .arr [.obj [("optionId", .str "always")]])]) =
      [.obj [("optionId", .str "always")]].map normalizePermissionOption :=
  ⟨(c8_permission_options (.obj [])).1 rfl,
   (c8_permission_options _).2.2 _ rfl (by simp)⟩

/-- C9 (counterexample): `terminate` drops the child and drains the request
table but does not clear the permission table: with one pending permission
resolver installed, the table is unchanged and non-empty after terminate,
contradicting the claim that terminate also clears it. -/
theorem c9_terminate_counterexample :
    (terminateTransport
        { child := some (), pendingSlots := [(1, none)],
          permissionResolvers := [("req-1", none)] }).1.permissionResolvers
      = [("req-1", none)] ∧
    (terminateTransport
        { child := some (), pendingSlots := [(1, none)],
          permissionResolvers := [("req-1", none)] }).1.permissionResolvers
      ≠ [] :=
  ⟨rfl, by simp [terminateTransport]⟩

/-- C9 (amended): `terminate` drops the owned child, delivers
`Err("Agent terminated")` to every pending request slot leaving the request
table empty, and leaves the permission table unchanged (it is not cleared;
permission waiters remove their own entries on resolution or timeout). -/
theorem c9_terminate_behavior (st : TransportTables) :
    (terminateTransport st).1.child = none ∧
    (terminateTransport st).1.pendingSlots = [] ∧
    (terminateTransport st).2 =
      st.pendingSlots.map (fun p => (p.1, Except.error "Agent terminated")) ∧
    (terminateTransport st).1.permissionResolvers = st.permissionResolvers :=
  ⟨rfl, rfl, drainPendingErr_eq_map _ _, rfl⟩

/-- C10: renaming a session id absent from the in-memory session map returns
success while changing nothing: no error, no session mutation, no thread-store
call. -/
theorem c10_rename_missing_session (sessions : List (String × SessionInfo))
    (sid title : String) (h : lookupA sessions sid = none) :
    sessionRenameCommand sessions sid title = (.ok (), sessions, []) := by
  simp [sessionRenameCommand, renameSessionOp, h]

theorem c10_rename_missing_session_witness :
    lookupA ([] : List (String × SessionInfo)) "missing-id" = none ∧
    sessionRenameCommand [] "missing-id" "New title" = (.ok (), [], []) :=
  ⟨rfl, c10_rename_missing_session [] "missing-id" "New title" rfl⟩

theorem existsGetLastOfCons {γ : Type} (v : γ) (t : List γ) :
    ∃ w, (v :: t).getLast? = some w := by
  induction t generalizing v with
  | nil => exact ⟨v, rfl⟩
  | cons a t ih =>
    rw [List.getLast?_cons_cons]
    exact ih a

theorem foldl_replace_getLast {β γ : Type} (l : List γ) (d : β) (f : γ → β) :
    l.foldl (fun _ u => f u) d =
      (match l.getLast? with | some u => f u | none => d) := by
  induction l generalizing d with
  | nil => rfl
  | cons u rest ih =>
    simp only [List.foldl_cons]
    rw [ih]
    cases rest with
    | nil => rfl
    | cons v t =>
      obtain ⟨w, hw⟩ := existsGetLastOfCons v t
      rw [hw, List.getLast?_cons_cons, hw]

theorem mem_insertSortedByUpdatedAt (t u : PersistedThread)
    (l : List PersistedThread) :
    u ∈ insertSortedByUpdatedAt t l ↔ u = t ∨ u ∈ l := by
  induction l with
  | nil => simp [insertSortedByUpdatedAt]
  | cons v rest ih =>
    unfold insertSortedByUpdatedAt
    by_cases h : v.updatedAt < t.updatedAt
    · simp [h]
    · simp only [h, if_false, List.mem_cons, ih]
      tauto

theorem mem_sortByUpdatedAtDesc (u : PersistedThread) (l : List PersistedThread)
    (h : u ∈ l) : u ∈ sortByUpdatedAtDesc l := by
  induction l with
  | nil => cases h
  | cons t rest ih =>
    unfold sortByUpdatedAtDesc
    rw [mem_insertSortedByUpdatedAt]
    rcases List.mem_cons.mp h with h1 | h1
    · exact Or.inl h1
    · exact Or.inr (ih h1)

theorem threads_after_updates (updates : List (JsonVal × String)) (st : StoreFS)
    (sid wd : String) (c : ThreadDirContent)
    (h : lookupA st.threads (wd, sid) = some c) :
    ∃ c', lookupA
        (updates.foldl (fun s u => updateMessages s sid wd u.1 u.2) st).threads
        (wd, sid) = some c' ∧
      c'.messages = updates.foldl (fun _ u => ((u.1.asArr).getD [])) c.messages ∧
      (updates.foldl (fun s u => updateMessages s sid wd u.1 u.2) st).cache =
        st.cache := by
  induction updates generalizing st c with
  | nil => exact ⟨c, h, rfl, rfl⟩
  | cons u rest ih =>
    simp only [List.foldl_cons]
    have h1 : lookupA (updateMessages st sid wd u.1 u.2).threads (wd, sid) =
        some ⟨c.manifest.setField "updatedAt" (.str u.2), (u.1.asArr).getD []⟩ := by
      unfold updateMessages
      rw [h]
      rw [lookupA_insertA]
      simp
    obtain ⟨c', hc', hmsg, hcache⟩ := ih (updateMessages st sid wd u.1 u.2) _ h1
    refine ⟨c', hc', hmsg, ?_⟩
    rw [hcache]
    unfold updateMessages
    rw [h]

/-- C1: once `cancel` has set the session status to `"cancelled"`, the
completion handler of a prompt that was already in flight can never run from
that state (the `session_prompt` command holds the sessions mutex from before
the status write until after the completion handler, so `session_cancel`
serializes entirely before or entirely after an in-flight prompt); hence no
prompt completion, `Ok` or `Err`, ever moves the status away from
`"cancelled"`. -/
theorem c1_cancel_authoritative (ops : List SessionOp) (s : PromptFlowState)
    (hrun : runSessionOps promptFlowInit ops = some s)
    (hcancelled : s.status = "cancelled") (ok : Bool) :
    promptFlowStep s (.promptComplete ok) = none := by
  have hinv : promptFlowInv s :=
    runSessionOps_preserves_inv ops promptFlowInit s
      (by intro h; simp [promptFlowInit] at h) hrun
  unfold promptFlowStep
  cases hf : s.inFlight with
  | true =>
    rcases hinv hf with ⟨hst, _⟩
    rw [hst] at hcancelled
    exact absurd hcancelled (by decide)
  | false => simp [hf]

theorem c1_cancel_authoritative_witness :
    runSessionOps promptFlowInit [SessionOp.cancelOp] =
      some { status := "cancelled", messages := [], inFlight := false,
             sessionsLockHeld := false } ∧
    promptFlowStep
      { status := "cancelled", messages := [], inFlight := false,
        sessionsLockHeld := false } (.promptComplete true) = none :=
  ⟨rfl, c1_cancel_authoritative [SessionOp.cancelOp] _ rfl rfl true⟩

/-- C4: after `new_session` registered `(internal, remote)`, and under any
later registrations with fresh ids, inbound `sessionId == remote` translates
to `internal` (including in the `session:update` event), broker-originated
requests for `internal` write `remote` on the wire, and unmapped ids pass
through unchanged in both directions. -/
theorem c4_session_id_translation (m : SessionIdMaps) (internal remote : String)
    (later : List (String × String))
    (hfresh : ∀ p ∈ later, p.1 ≠ internal ∧ p.2 ≠ remote) :
    remoteToInternal
        (applyRegistrations (registerSessionPair m internal remote) later)
        remote = internal ∧
    internalToRemote
        (applyRegistrations (registerSessionPair m internal remote) later)
        internal = remote ∧
    (∀ u, sessionUpdateEventSessionId
        (applyRegistrations (registerSessionPair m internal remote) later)
        (.obj [("sessionId", .str remote), ("update", u)]) = internal) ∧
    (∀ m' : SessionIdMaps, ∀ rid, lookupA m'.remoteToInternalMap rid = none →
      remoteToInternal m' rid = rid) ∧
    (∀ m' : SessionIdMaps, ∀ iid, lookupA m'.internalToRemoteMap iid = none →
      internalToRemote m' iid = iid) := by
  have h1 : lookupA
      (applyRegistrations (registerSessionPair m internal remote) later).remoteToInternalMap
      remote = some internal := by
    rw [lookup_applyRegistrations_rToI later _ remote (fun p hp => (hfresh p hp).2)]
    simp [registerSessionPair, lookupA_insertA]
  have h2 : lookupA
      (applyRegistrations (registerSessionPair m internal remote) later).internalToRemoteMap
      internal = some remote := by
    rw [lookup_applyRegistrations_iToR later _ internal (fun p hp => (hfresh p hp).1)]
    simp [registerSessionPair, lookupA_insertA]
  refine ⟨?_, ?_, ?_, ?_, ?_⟩
  · unfold remoteToInternal; rw [h1]; rfl
  · unfold internalToRemote; rw [h2]; rfl
  · intro u
    unfold sessionUpdateEventSessionId
    have hx : (((JsonVal.obj [("sessionId", .str remote), ("update", u)]).idx
        "sessionId").asStr).getD "" = remote := by
      simp [JsonVal.idx, JsonVal.getField, lookupA, JsonVal.asStr]
    rw [hx]
    unfold remoteToInternal; rw [h1]; rfl
  · intro m' rid h; unfold remoteToInternal; rw [h]; rfl
  · intro m' iid h; unfold internalToRemote; rw [h]; rfl

theorem c4_session_id_translation_witness :
    remoteToInternal
        (applyRegistrations (registerSessionPair ⟨[], []⟩ "int-1" "rem-1")
          [("int-2", "rem-2")]) "rem-1" = "int-1" ∧
    internalToRemote
        (applyRegistrations (registerSessionPair ⟨[], []⟩ "int-1" "rem-1")
          [("int-2", "rem-2")]) "int-1" = "rem-1" ∧
    sessionUpdateEventSessionId
        (applyRegistrations (registerSessionPair ⟨[], []⟩ "int-1" "rem-1")
          [("int-2", "rem-2")])
        (.obj [("sessionId", .str "rem-1"), ("update", .null)]) = "int-1" ∧
    remoteToInternal ⟨[], []⟩ "unmapped" = "unmapped" := by
  have h := c4_session_id_translation ⟨[], []⟩ "int-1" "rem-1"
    [("int-2", "rem-2")] (by decide)
  exact ⟨h.1, h.2.1, h.2.2.1 .null, h.2.2.2.1 ⟨[], []⟩ "unmapped" rfl⟩

/-- C6: for an existing session whose connection is alive, `prompt` sets the
status to `"prompting"`, appends exactly one user message
`{id: uuid, role: "user", content, timestamp: now}`, updates
`interactionMode` when a mode was supplied, then stores status `"active"` on
transport success and `"error"` on failure, persists the updated message list
via the thread store's `update_messages` in both cases, and returns the
transport's stop reason — `result["stopReason"]` or `"end_turn"` when
absent. -/
theorem c6_prompt_behavior (sessions : List (String × SessionInfo))
    (conns : List String) (sid : String) (content : JsonVal)
    (mode : Option String) (uuid now : String) (rpc : Except String JsonVal)
    (s : SessionInfo) (hs : lookupA sessions sid = some s)
    (hc : conns.contains s.connectionId = true) :
    (promptBeginSession s content mode uuid now).status = "prompting" ∧
    (promptBeginSession s content mode uuid now).messages =
      s.messages ++ [mkUserMessage uuid content now] ∧
    (promptBeginSession s content mode uuid now).interactionMode =
      mode.or s.interactionMode ∧
    lookupA (promptSessionManager sessions conns sid content mode uuid now rpc).2.1
        sid =
      some { promptBeginSession s content mode uuid now with
               status := (match acpPromptCall rpc with
                          | .ok _ => "active" | .error _ => "error") } ∧
    (promptSessionManager sessions conns sid content mode uuid now rpc).1 =
      acpPromptCall rpc ∧
    (∀ r, acpPromptCall (.ok r) = .ok ((r.getStr "stopReason").getD "end_turn")) ∧
    (∀ e, acpPromptCall (.error e) = .error e) ∧
    (promptSessionManager sessions conns sid content mode uuid now rpc).2.2 =
      [.updateMessagesCall sid s.workingDir
        (.arr (s.messages ++ [mkUserMessage uuid content now]))] := by
  refine ⟨rfl, rfl, ?_, ?_, ?_, fun r => rfl, fun e => rfl, ?_⟩
  · cases mode <;> rfl
  · simp only [promptSessionManager, hs, hc, if_true]
    rw [lookupA_insertA]
    simp
  · simp only [promptSessionManager, hs, hc, if_true]
  · simp only [promptSessionManager, hs, hc, if_true]
    simp [promptBeginSession]

theorem c6_prompt_behavior_witness :
    lookupA [("sid-1", sampleSession)] "sid-1" = some sampleSession ∧
    (promptSessionManager [("sid-1", sampleSession)] ["conn-1"] "sid-1"
        (.str "hello") none "u1" "t1" (.ok (.obj []))).1 = .ok "end_turn" ∧
    (promptSessionManager [("sid-1", sampleSession)] ["conn-1"] "sid-1"
        (.str "hello") none "u1" "t1" (.ok (.obj []))).2.2 =
      [.updateMessagesCall "sid-1" "/w"
        (.arr [mkUserMessage "u1" (.str "hello") "t1"])] := by
  have h := c6_prompt_behavior [("sid-1", sampleSession)] ["conn-1"] "sid-1"
    (.str "hello") none "u1" "t1" (.ok (.obj [])) sampleSession rfl rfl
  refine ⟨rfl, ?_, ?_⟩
  · rw [h.2.2.2.2.1]
    rfl
  · rw [h.2.2.2.2.2.2.2]
    rfl

/-- C5: saving a session with a `sessionId` and `workingDir` and loading that
session id back yields exactly the scalar manifest fields written by save and
the identical message list; and after save followed by any number of
`update_messages` calls, the thread store still loads the thread — and
`load_all` returns it — with `messages` equal to the last written list. -/
theorem c5_save_load_roundtrip (st₀ : StoreFS) (session : JsonVal)
    (sid wd now : String)
    (hsid : (session.idx "sessionId").asStr = some sid)
    (hwd : (session.idx "workingDir").asStr = some wd)
    (updates : List (JsonVal × String)) (st₁ : StoreFS)
    (hsave : saveThread st₀ session now = .ok st₁) :
    loadThread st₁ sid wd = some
      { sessionId := sid,
        title := ((session.idx "title").asStr).getD "Untitled",
        agentId := ((session.idx "agentId").asStr).getD "",
        agentName := ((session.idx "agentName").asStr).getD "",
        workingDir := wd,
        createdAt := ((session.idx "createdAt").asStr).getD now,
        updatedAt := now,
        workspaceId := (session.idx "workspaceId").asStr,
        worktreePath := (session.idx "worktreePath").asStr,
        worktreeBranch := (session.idx "worktreeBranch").asStr,
        useWorktree := (session.idx "useWorktree").asBool,
        interactionMode := (session.idx "interactionMode").asStr,
        parentSessionId := (session.idx "parentSessionId").asStr,
        messages := ((session.idx "messages").asArr).getD [] } ∧
    (∃ pt2,
      loadThread (updates.foldl (fun s u => updateMessages s sid wd u.1 u.2) st₁)
        sid wd = some pt2 ∧
      pt2.messages =
        (match updates.getLast? with
         | some u => (u.1.asArr).getD []
         | none => ((session.idx "messages").asArr).getD []) ∧
      pt2 ∈ loadAll
        (updates.foldl (fun s u => updateMessages s sid wd u.1 u.2) st₁)) := by
  have hst : st₁ =
      { threads := insertA st₀.threads (wd, sid)
          ⟨mkThreadManifest session sid wd now,
           ((session.idx "messages").asArr).getD []⟩,
        cache := insertA st₀.cache sid (mkThreadManifest session sid wd now) } := by
    unfold saveThread at hsave
    rw [hsid, hwd] at hsave
    exact (Except.ok.inj hsave).symm
  subst hst
  have hload : lookupA
      (insertA st₀.threads (wd, sid)
        ⟨mkThreadManifest session sid wd now,
         ((session.idx "messages").asArr).getD []⟩) (wd, sid) =
      some ⟨mkThreadManifest session sid wd now,
            ((session.idx "messages").asArr).getD []⟩ := by
    rw [lookupA_insertA]
    simp
  constructor
  · unfold loadThread
    rw [hload]
    rfl
  · obtain ⟨c', hc', hmsg, hcache⟩ :=
      threads_after_updates updates
        { threads := insertA st₀.threads (wd, sid)
            ⟨mkThreadManifest session sid wd now,
             ((session.idx "messages").asArr).getD []⟩,
          cache := insertA st₀.cache sid (mkThreadManifest session sid wd now) }
        sid wd
        ⟨mkThreadManifest session sid wd now,
         ((session.idx "messages").asArr).getD []⟩
        hload
    refine ⟨{ sessionId := ((c'.manifest.idx "sessionId").asStr).getD sid,
              title := ((c'.manifest.idx "title").asStr).getD "Untitled",
              agentId := ((c'.manifest.idx "agentId").asStr).getD "",
              agentName := ((c'.manifest.idx "agentName").asStr).getD "",
              workingDir := ((c'.manifest.idx "workingDir").asStr).getD wd,
              createdAt := ((c'.manifest.idx "createdAt").asStr).getD "",
              updatedAt := ((c'.manifest.idx "updatedAt").asStr).getD "",
              workspaceId := (c'.manifest.idx "workspaceId").asStr,
              worktreePath := (c'.manifest.idx "worktreePath").asStr,
              worktreeBranch := (c'.manifest.idx "worktreeBranch").asStr,
              useWorktree := (c'.manifest.idx "useWorktree").asBool,
              interactionMode := (c'.manifest.idx "interactionMode").asStr,
              parentSessionId := (c'.manifest.idx "parentSessionId").asStr,
              messages := c'.messages }, ?_, ?_, ?_⟩
    · unfold loadThread
      rw [hc']
    · show c'.messages = _
      rw [hmsg, foldl_replace_getLast]
      cases updates.getLast? <;> rfl
    · apply mem_sortByUpdatedAtDesc
      apply List.mem_filterMap.mpr
      refine ⟨(sid, mkThreadManifest session sid wd now), ?_, ?_⟩
      · rw [hcache]
        exact mem_insertA _ _ _
      · show loadThread _ sid wd = _
        unfold loadThread
        rw [hc']

theorem c5_save_load_roundtrip_witness :
    saveThread ⟨[], []⟩ sampleThreadSession "t0" = .ok sampleStoreAfterSave ∧
    loadThread sampleStoreAfterSave "s1" "/w" = some samplePersisted ∧
    samplePersisted ∈ loadAll sampleStoreAfterSave := by
  have h := c5_save_load_roundtrip ⟨[], []⟩ sampleThreadSession "s1" "/w" "t0"
    rfl rfl [] sampleStoreAfterSave rfl
  obtain ⟨ha, pt2, hl, hm, hmem⟩ := h
  refine ⟨rfl, ?_, ?_⟩
  · exact ha
  · have hpt : samplePersisted = pt2 := Option.some.inj (ha.symm.trans hl)
    rw [hpt]
    exact hmem

end OAM
